import Mathlib

/-!
Shallow embedding of `tweet-fs` (src/src/main.rs): a FUSE filesystem exposing a
single write-only pseudo-file whose content, on release, is published as a tweet.

The state is `files : Mutex<Slab<Vec<u8>>>`.  We model the `slab::Slab` crate
faithfully (entries are `Occupied`/`Vacant(next)` slots plus a free-list head
`next`), the dispatcher `TweetFS::call` as a function from a slab state and a
decoded operation to an outcome (reply + new state, or a panic), and
`String::from_utf8_lossy` as an executable UTF-8 decoder with U+FFFD
replacement following Rust's validation ranges.
-/

namespace TweetFS

/-- `libc::EPERM`. -/
def EPERM : Nat := 1

/-- `libc::EIO`. -/
def EIO : Nat := 5

/-- `libc::O_ACCMODE` (mask of the access-mode bits of open flags). -/
def O_ACCMODE : Nat := 3

/-- `libc::O_WRONLY`. -/
def O_WRONLY : Nat := 1

/-- One slot of `slab::Slab<Vec<u8>>`: either an occupied entry holding a byte
buffer, or a vacant slot storing the index of the next slot on the free list. -/
inductive Entry where
  | vacant (next : Nat)
  | occupied (val : List Nat)
deriving DecidableEq, Repr

/-- `slab::Slab<Vec<u8>>`: a vector of slots plus the head `next` of the free
list (`next = entries.length` means the free list is empty and the next
insertion pushes a new slot). -/
structure Slab where
  entries : List Entry
  next : Nat
deriving DecidableEq, Repr

/-- `Slab::default()` / `Slab::new()`: no slots. -/
def Slab.empty : Slab := ⟨[], 0⟩

/-- `slab.get(key)` / `slab.get_mut(key)`: `Some` of the buffer iff `key` is an
occupied slot. -/
def Slab.get (s : Slab) (key : Nat) : Option (List Nat) :=
  match s.entries[key]? with
  | some (.occupied v) => some v
  | _ => none

/-- `slab.insert(val)`: take the free-list head as the new key; if the free
list is empty, push a new slot at the end.  Returns `none` in the state the
crate treats as unreachable (the free-list head names a slot that is not
vacant), where the Rust code panics; this never happens in a well-formed
slab. -/
def Slab.insert (s : Slab) (val : List Nat) : Option (Nat × Slab) :=
  if s.next = s.entries.length then
    some (s.next, ⟨s.entries ++ [.occupied val], s.next + 1⟩)
  else
    match s.entries[s.next]? with
    | some (.vacant nx) => some (s.next, ⟨s.entries.set s.next (.occupied val), nx⟩)
    | _ => none

/-- In-place mutation of an occupied slot through `get_mut` (used by the write
path: the `Vec<u8>` behind the key is replaced by the mutated buffer). -/
def Slab.update (s : Slab) (key : Nat) (val : List Nat) : Slab :=
  ⟨s.entries.set key (.occupied val), s.next⟩

/-- `slab.remove(key)`: removes and returns the buffer, pushing the slot onto
the free list.  Returns `none` where the crate panics ("invalid key"): when
`key` is not an occupied slot. -/
def Slab.remove (s : Slab) (key : Nat) : Option (List Nat × Slab) :=
  match s.entries[key]? with
  | some (.occupied v) => some (v, ⟨s.entries.set key (.vacant s.next), key⟩)
  | _ => none

/-- Well-formedness of the free-list head: it either marks an empty free list
or names a vacant slot.  Every slab reachable from `Slab::default()` by the
crate's operations satisfies this. -/
def Slab.WF (s : Slab) : Prop :=
  s.next = s.entries.length ∨ ∃ nx, s.entries[s.next]? = some (.vacant nx)

/-- `Vec::resize(n, 0)`: truncates to `n` elements when `n` is below the
current length, otherwise extends with zeros. -/
def resizeBuf (b : List Nat) (n : Nat) : List Nat :=
  if n ≤ b.length then b.take n else b ++ List.replicate (n - b.length) 0

/-- Copying `p` into `b[offset .. offset + p.length]` (the write path's
`read_exact(&mut content[offset..offset + size])`). -/
def spliceAt (b : List Nat) (offset : Nat) (p : List Nat) : List Nat :=
  b.take offset ++ p ++ b.drop (offset + p.length)

/-- The buffer transform of a successful write: `content.resize(offset + size, 0)`
followed by copying the payload into `[offset, offset + size)`. -/
def writeBuf (b : List Nat) (offset : Nat) (p : List Nat) : List Nat :=
  spliceAt (resizeBuf b (offset + p.length)) offset p

/-- `writeBuf` folded over a sequence of `(offset, payload)` writes starting
from the empty buffer created at open. -/
def applyWrites (ws : List (Nat × List Nat)) : List Nat :=
  ws.foldl (fun b w => writeBuf b w.1 w.2) []

/-- Byte of a buffer at position `j`, defaulting to `0` out of range. -/
def byteAt (b : List Nat) (j : Nat) : Nat :=
  (b[j]?).getD 0

/-- Is byte position `j` inside some write interval `[o_i, o_i + len p_i)`? -/
def coveredBy (ws : List (Nat × List Nat)) (j : Nat) : Prop :=
  ∃ w ∈ ws, w.1 ≤ j ∧ j < w.1 + w.2.length

instance (ws : List (Nat × List Nat)) (j : Nat) : Decidable (coveredBy ws j) :=
  List.decidableBEx _ ws

/-- U+FFFD REPLACEMENT CHARACTER, emitted by `String::from_utf8_lossy` for each
maximal invalid subsequence. -/
def replacementChar : Char := Char.ofNat 0xFFFD

/-- A UTF-8 continuation byte (`0x80..=0xBF`). -/
def isCont (b : Nat) : Bool := 0x80 ≤ b && b ≤ 0xBF

/-- Valid second byte of a 3-byte sequence, per Rust's
`core::str::validations::run_utf8_validation` (excludes overlong encodings and
surrogates). -/
def valid3Second (b c1 : Nat) : Bool :=
  if b = 0xE0 then 0xA0 ≤ c1 && c1 ≤ 0xBF
  else if b = 0xED then 0x80 ≤ c1 && c1 ≤ 0x9F
  else isCont c1

/-- Valid second byte of a 4-byte sequence, per Rust's validation (excludes
overlong encodings and code points above U+10FFFF). -/
def valid4Second (b c1 : Nat) : Bool :=
  if b = 0xF0 then 0x90 ≤ c1 && c1 ≤ 0xBF
  else if b = 0xF4 then 0x80 ≤ c1 && c1 ≤ 0x8F
  else isCont c1

/-- `String::from_utf8_lossy`: decode UTF-8, replacing each maximal invalid
subsequence (per the error lengths reported by Rust's validator) by U+FFFD. -/
def lossyDecode : List Nat → List Char
  | [] => []
  | b :: rest =>
    if b < 0x80 then
      Char.ofNat b :: lossyDecode rest
    else if 0xC2 ≤ b && b ≤ 0xDF then
      match rest with
      | [] => [replacementChar]
      | c1 :: rest1 =>
        if isCont c1 then
          Char.ofNat (((b - 0xC0) <<< 6) ||| (c1 - 0x80)) :: lossyDecode rest1
        else
          replacementChar :: lossyDecode (c1 :: rest1)
    else if 0xE0 ≤ b && b ≤ 0xEF then
      match rest with
      | [] => [replacementChar]
      | c1 :: rest1 =>
        if valid3Second b c1 then
          match rest1 with
          | [] => [replacementChar]
          | c2 :: rest2 =>
            if isCont c2 then
              Char.ofNat (((b - 0xE0) <<< 12) ||| ((c1 - 0x80) <<< 6) ||| (c2 - 0x80)) ::
                lossyDecode rest2
            else
              replacementChar :: lossyDecode (c2 :: rest2)
        else
          replacementChar :: lossyDecode (c1 :: rest1)
    else if 0xF0 ≤ b && b ≤ 0xF4 then
      match rest with
      | [] => [replacementChar]
      | c1 :: rest1 =>
        if valid4Second b c1 then
          match rest1 with
          | [] => [replacementChar]
          | c2 :: rest2 =>
            if isCont c2 then
              match rest2 with
              | [] => [replacementChar]
              | c3 :: rest3 =>
                if isCont c3 then
                  Char.ofNat (((b - 0xF0) <<< 18) ||| ((c1 - 0x80) <<< 12) |||
                      ((c2 - 0x80) <<< 6) ||| (c3 - 0x80)) :: lossyDecode rest3
                else
                  replacementChar :: lossyDecode (c3 :: rest3)
            else
              replacementChar :: lossyDecode (c2 :: rest2)
        else
          replacementChar :: lossyDecode (c1 :: rest1)
    else
      replacementChar :: lossyDecode rest
termination_by l => l.length
decreasing_by all_goals (simp_wf <;> omega)

/-- A decoded FUSE operation as dispatched to `TweetFS::call`.  `Write` carries
the header fields (`fh`, `offset`, `size`) and the outcome of reading the
payload from the transport (`none` models `read_exact` failing).  `Release`
carries the outcome of the publish call (`egg_mode` send), which reaches the
dispatcher only as a logged value. -/
inductive Operation where
  | Getattr
  | Open (flags : Nat)
  | Write (fh offset size : Nat) (payload : Option (List Nat))
  | Release (fh : Nat) (publishOk : Bool)
  | Other
deriving DecidableEq, Repr

/-- A reply sent back through the FUSE context. -/
inductive Reply where
  | attr
  | opened (key : Nat)
  | written (size : Nat)
  | released
  | error (errno : Nat)
  | empty
deriving DecidableEq, Repr

/-- Result of one `call`: a reply with the new slab state, or a panic of the
task (an `unwrap`/`unreachable`/slab assertion firing) with the state the
table is left in. -/
inductive Outcome where
  | ok (r : Reply) (s : Slab)
  | panicked (s : Slab)
deriving DecidableEq, Repr

/-- `TweetFS::call`, one dispatched operation.  The second component is the
text handed to the publish bridge (`DraftTweet::new(&status).send(..)`), when
the operation publishes. -/
def call (s : Slab) (op : Operation) : Outcome × Option String :=
  match op with
  | .Getattr => (.ok .attr s, none)
  | .Open flags =>
    if flags &&& O_ACCMODE = O_WRONLY then
      match s.insert [] with
      | some (key, s1) => (.ok (.opened key) s1, none)
      | none => (.panicked s, none)
    else
      (.ok (.error EPERM) s, none)
  | .Write fh offset size payload =>
    match s.get fh with
    | none => (.ok (.error EIO) s, none)
    | some content =>
      let resized := resizeBuf content (offset + size)
      match payload with
      | none => (.panicked (s.update fh resized), none)
      | some bytes => (.ok (.written size) (s.update fh (spliceAt resized offset bytes)), none)
  | .Release fh _publishOk =>
    match s.remove fh with
    | none => (.panicked s, none)
    | some (content, s1) =>
      (.ok .released s1, some (String.mk (lossyDecode content)))
  | .Other => (.ok .empty s, none)

/-- Atomic steps of the `Operation::Release` arm, in source order: the tokio
mutex is taken (`self.files.lock().await`), the buffer is removed from the
slab, the publish future is awaited, the reply is written, and the mutex guard
is dropped at the end of the match arm's scope. -/
inductive ReleaseEvent where
  | lockAcquire
  | tableRemove (fh : Nat)
  | publishAwait
  | replySent
  | lockRelease
deriving DecidableEq, Repr

/-- The event trace of the `Operation::Release` arm as written in the source:
the mutex guard `files` is bound at the top of the arm and only goes out of
scope after the reply, so its release is the final event. -/
def releaseTrace (fh : Nat) : List ReleaseEvent :=
  [.lockAcquire, .tableRemove fh, .publishAwait, .replySent, .lockRelease]

/-- Index of the first occurrence of an event in a trace (length if absent). -/
def eventIdx (es : List ReleaseEvent) (e : ReleaseEvent) : Nat :=
  match es with
  | [] => 0
  | x :: xs => if x = e then 0 else eventIdx xs e + 1

/-- The four credentials read from the environment by `TweetFS::new`. -/
structure Env where
  consumerKey : Option String
  consumerSecret : Option String
  accessToken : Option String
  accessTokenSecret : Option String
deriving DecidableEq, Repr

/-- `TweetFS::new()`: fails iff any of `CONSUMER_KEY`, `CONSUMER_SECRET`,
`ACCESS_TOKEN`, `ACCESS_TOKEN_SECRET` is absent from the environment (checked
in source order). -/
def TweetFSnew (env : Env) : Except String (String × String × String × String) :=
  match env.consumerKey with
  | none => .error "environment variable not found: CONSUMER_KEY"
  | some ck =>
    match env.consumerSecret with
    | none => .error "environment variable not found: CONSUMER_SECRET"
    | some cs =>
      match env.accessToken with
      | none => .error "environment variable not found: ACCESS_TOKEN"
      | some at1 =>
        match env.accessTokenSecret with
        | none => .error "environment variable not found: ACCESS_TOKEN_SECRET"
        | some ats => .ok (ck, cs, at1, ats)

/-- `run()`: takes the first CLI argument as mountpoint (error when absent),
requires it to be a regular file, builds `TweetFS` from the environment, then
mounts (the mount outcome is an input from the collaborator). -/
def run (args : List String) (mountpointIsFile : Bool) (env : Env)
    (mountRes : Except String Unit) : Except String Unit :=
  match args[1]? with
  | none => .error "missing mountpoint"
  | some _ =>
    if mountpointIsFile then
      match TweetFSnew env with
      | .error e => .error e
      | .ok _ => mountRes
    else
      .error "the mountpoint must be a regular file"

/-- `main()`: `dotenv::dotenv()?` propagates its error; the result of `run()`
inside `tokio_compat::run_std` is only logged (`tracing::error!`) and then
discarded, so `main` returns `Ok(())` regardless of it. -/
def mainResult (dotenvRes : Except String Unit) (args : List String)
    (mountpointIsFile : Bool) (env : Env) (mountRes : Except String Unit) :
    Except String Unit :=
  match dotenvRes with
  | .error e => .error e
  | .ok _ =>
    let _ := run args mountpointIsFile env mountRes
    .ok ()

/-- The process exit status of an `anyhow::Result<()>` main: zero on `Ok`,
nonzero on `Err`. -/
def exitCode (r : Except String Unit) : Nat :=
  match r with
  | .ok _ => 0
  | .error _ => 1

/-- Did a startup step fail? -/
def failed (r : Except String Unit) : Bool :=
  match r with
  | .ok _ => false
  | .error _ => true

/-! ## Helper lemmas -/

theorem resizeBuf_length (b : List Nat) (n : Nat) : (resizeBuf b n).length = n := by
  unfold resizeBuf
  split
  · rw [List.length_take]; omega
  · rw [List.length_append, List.length_replicate]; omega

theorem writeBuf_length (b : List Nat) (o : Nat) (p : List Nat) :
    (writeBuf b o p).length = o + p.length := by
  unfold writeBuf spliceAt
  simp [resizeBuf_length]

theorem byteAt_zero_of_length_le (b : List Nat) (j : Nat) (h : b.length ≤ j) :
    byteAt b j = 0 := by
  simp [byteAt, List.getElem?_eq_none h]

theorem byteAt_resizeBuf (b : List Nat) (n j : Nat) (hz : byteAt b j = 0) :
    byteAt (resizeBuf b n) j = 0 := by
  unfold resizeBuf
  unfold byteAt at *
  split
  · rw [List.getElem?_take]
    split
    · exact hz
    · rfl
  · rw [List.getElem?_append]
    split
    · exact hz
    · rw [List.getElem?_replicate]
      split <;> rfl

theorem byteAt_writeBuf (b : List Nat) (o : Nat) (p : List Nat) (j : Nat)
    (hnc : ¬(o ≤ j ∧ j < o + p.length)) (hz : byteAt b j = 0) :
    byteAt (writeBuf b o p) j = 0 := by
  rcases Nat.lt_or_ge j o with hjo | hjo
  · have hr := resizeBuf_length b (o + p.length)
    have hb := byteAt_resizeBuf b (o + p.length) j hz
    unfold writeBuf spliceAt
    unfold byteAt at hb ⊢
    rw [List.getElem?_append, List.getElem?_append, List.getElem?_take]
    simp only [List.length_append, List.length_take, hr]
    have h1 : j < min o (o + p.length) := by omega
    have h2 : j < min o (o + p.length) + p.length := by omega
    rw [if_pos h2, if_pos h1, if_pos hjo]
    exact hb
  · have : (writeBuf b o p).length ≤ j := by rw [writeBuf_length]; omega
    exact byteAt_zero_of_length_le _ _ this

theorem byteAt_foldl_writes (ws : List (Nat × List Nat)) (b : List Nat) (j : Nat)
    (hnc : ¬ coveredBy ws j) (hz : byteAt b j = 0) :
    byteAt (ws.foldl (fun b w => writeBuf b w.1 w.2) b) j = 0 := by
  induction ws generalizing b with
  | nil => simpa using hz
  | cons w ws ih =>
    have hw : ¬(w.1 ≤ j ∧ j < w.1 + w.2.length) := fun hc => hnc ⟨w, .head _, hc⟩
    have hws : ¬ coveredBy ws j := fun ⟨u, hu, hc⟩ => hnc ⟨u, .tail _ hu, hc⟩
    apply ih
    all_goals first
      | exact hws
      | exact byteAt_writeBuf b w.1 w.2 j hw hz

theorem Slab.get_eq_some_iff (s : Slab) (k : Nat) (b : List Nat) :
    s.get k = some b ↔ s.entries[k]? = some (.occupied b) := by
  unfold Slab.get
  rcases h : s.entries[k]? with _ | e
  · simp
  · cases e <;> simp

theorem Slab.get_eq_none_iff (s : Slab) (k : Nat) :
    s.get k = none ↔ ∀ b, s.entries[k]? ≠ some (.occupied b) := by
  unfold Slab.get
  rcases h : s.entries[k]? with _ | e
  · simp
  · cases e <;> simp

theorem call_write_unknown (s : Slab) (fh offset size : Nat)
    (payload : Option (List Nat)) (h : s.get fh = none) :
    call s (.Write fh offset size payload) = (.ok (.error EIO) s, none) := by
  simp only [call, h]

theorem call_release_open (s : Slab) (fh : Nat) (b : List Nat) (pub : Bool)
    (h : s.get fh = some b) :
    call s (.Release fh pub) =
      (.ok .released ⟨s.entries.set fh (.vacant s.next), fh⟩,
        some (String.mk (lossyDecode b))) := by
  have hk : s.entries[fh]? = some (.occupied b) := (Slab.get_eq_some_iff s fh b).1 h
  simp only [call, Slab.remove, hk]

theorem call_release_unknown_panics (s : Slab) (fh : Nat) (pub : Bool)
    (h : s.get fh = none) :
    (call s (.Release fh pub)).1 = .panicked s := by
  have hk := (Slab.get_eq_none_iff s fh).1 h
  rcases he : s.entries[fh]? with _ | e
  · simp only [call, Slab.remove, he]
  · cases e with
    | vacant nx => simp only [call, Slab.remove, he]
    | occupied v => exact absurd he (hk v)

theorem call_write_open (s : Slab) (fh offset : Nat) (b bytes : List Nat)
    (h : s.get fh = some b) :
    call s (.Write fh offset bytes.length (some bytes)) =
      (.ok (.written bytes.length) (s.update fh (writeBuf b offset bytes)), none) := by
  simp only [call, writeBuf, h]

/-! ## Claims -/

/-- Claim C1 counterexample: the claim says the buffer length after a write
sequence is `max_i (o_i + len p_i)` and each write only grows the buffer.  But
`content.resize(offset + size, 0)` truncates when `offset + size` is below the
current length: after writes `(0, [1,1,1])` then `(0, [2])` the buffer has
length 1, not `max(3, 1) = 3`. -/
theorem claim_C1_counterexample :
    (applyWrites [(0, [1, 1, 1]), (0, [2])]).length ≠ 3 := by decide

/-- Claim C1 (amended): for every sequence of writes applied to a fresh buffer,
the resulting length equals `o + len p` of the *final* write (a write whose end
lies below the current length truncates the buffer), and every byte not covered
by any write interval is zero. -/
theorem claim_C1_last_write_length_and_zero_fill (ws : List (Nat × List Nat))
    (w : Nat × List Nat) :
    (applyWrites (ws ++ [w])).length = w.1 + w.2.length ∧
    ∀ j, ¬ coveredBy (ws ++ [w]) j → byteAt (applyWrites (ws ++ [w])) j = 0 := by
  constructor
  · unfold applyWrites
    rw [List.foldl_append]
    simp [writeBuf_length]
  · intro j hj
    unfold applyWrites
    exact byteAt_foldl_writes (ws ++ [w]) [] j hj (by simp [byteAt])

/-- Claim C1 witness: writes `(0, [1])` then `(3, [2])` give the buffer
`[1, 0, 0, 2]` of length `3 + 1 = 4`, and uncovered position 1 is zero. -/
theorem claim_C1_witness :
    (applyWrites ([(0, [1])] ++ [(3, [2])])).length = 4 ∧
    byteAt (applyWrites ([(0, [1])] ++ [(3, [2])])) 1 = 0 :=
  ⟨(claim_C1_last_write_length_and_zero_fill [(0, [1])] (3, [2])).1,
    (claim_C1_last_write_length_and_zero_fill [(0, [1])] (3, [2])).2 1 (by decide)⟩

/-- Claim C2 counterexample: open handle 0, release it, then release it again.
The claim says the second release yields the unknown-handle I/O error and never
a panic, but `slab::Slab::remove` panics on an absent key, so the second
release panics. -/
theorem claim_C2_counterexample :
    (call Slab.empty (.Open 1)).1 = .ok (.opened 0) ⟨[.occupied []], 1⟩ ∧
    (call ⟨[.occupied []], 1⟩ (.Release 0 true)).1 = .ok .released ⟨[.vacant 1], 0⟩ ∧
    (call ⟨[.vacant 1], 0⟩ (.Release 0 true)).1 = .panicked ⟨[.vacant 1], 0⟩ := by
  decide

/-- Claim C2 (amended): after a release removes handle `fh` from the table, a
subsequent write on `fh` yields the unknown-handle I/O error with the table
unchanged, but a second release on `fh` panics (the slab's remove asserts the
key is present) instead of reporting an error. -/
theorem claim_C2_write_errors_second_release_panics (s : Slab) (fh : Nat)
    (b : List Nat) (offset size : Nat) (payload : Option (List Nat))
    (pub1 pub2 : Bool) (h : s.get fh = some b) :
    ∃ s1, (call s (.Release fh pub1)).1 = .ok .released s1 ∧
      s1.get fh = none ∧
      call s1 (.Write fh offset size payload) = (.ok (.error EIO) s1, none) ∧
      (call s1 (.Release fh pub2)).1 = .panicked s1 := by
  have hk := (Slab.get_eq_some_iff s fh b).1 h
  have hfh_lt : fh < s.entries.length := by
    by_contra hcon
    push_neg at hcon
    rw [List.getElem?_eq_none hcon] at hk
    cases hk
  have hrel := call_release_open s fh b pub1 h
  refine ⟨⟨s.entries.set fh (.vacant s.next), fh⟩, by rw [hrel], ?_, ?_, ?_⟩
  · have hset : (s.entries.set fh (.vacant s.next))[fh]? = some (.vacant s.next) :=
      List.getElem?_set_self hfh_lt
    simp [Slab.get, hset]
  · apply call_write_unknown
    have hset : (s.entries.set fh (.vacant s.next))[fh]? = some (.vacant s.next) :=
      List.getElem?_set_self hfh_lt
    simp [Slab.get, hset]
  · apply call_release_unknown_panics
    have hset : (s.entries.set fh (.vacant s.next))[fh]? = some (.vacant s.next) :=
      List.getElem?_set_self hfh_lt
    simp [Slab.get, hset]

/-- Claim C2 witness: the slab holding one open handle 0 with buffer `[7]`. -/
theorem claim_C2_witness :
    Slab.get ⟨[.occupied [7]], 1⟩ 0 = some [7] ∧
    ∃ s1, (call ⟨[.occupied [7]], 1⟩ (.Release 0 true)).1 = .ok .released s1 ∧
      s1.get 0 = none ∧
      call s1 (.Write 0 0 1 (some [9])) = (.ok (.error EIO) s1, none) ∧
      (call s1 (.Release 0 false)).1 = .panicked s1 :=
  ⟨by decide,
    claim_C2_write_errors_second_release_panics ⟨[.occupied [7]], 1⟩ 0 [7] 0 1
      (some [9]) true false (by decide)⟩

/-- Claim C3 counterexample: the claim says the handle-table lock is released
before the publish call is awaited.  In the source the mutex guard `files` is
bound at the top of the `Release` arm and is dropped only at the end of the
arm's scope, after the publish await and the reply, so in the arm's event trace
the lock release does not precede the publish await. -/
theorem claim_C3_counterexample :
    ¬ (eventIdx (releaseTrace 0) .lockRelease < eventIdx (releaseTrace 0) .publishAwait) := by
  decide

/-- Claim C3 (amended): during release the lock is acquired before the buffer
removal and held across the publish await: in the `Release` arm's trace the
publish await strictly precedes the lock release, so a slow publish does stall
other operations on the table until the release completes. -/
theorem claim_C3_lock_held_across_publish (fh : Nat) :
    eventIdx (releaseTrace fh) .lockAcquire < eventIdx (releaseTrace fh) .publishAwait ∧
    eventIdx (releaseTrace fh) .publishAwait < eventIdx (releaseTrace fh) .lockRelease := by
  simp [releaseTrace, eventIdx]

/-- Claim C4: an open whose access mode is not write-only (read-only,
read-write, or the invalid mode 3) is rejected with `EPERM` and the handle
table is returned unchanged: no handle is allocated. -/
theorem claim_C4_open_non_wronly_rejected (s : Slab) (flags : Nat)
    (h : flags &&& O_ACCMODE ≠ O_WRONLY) :
    call s (.Open flags) = (.ok (.error EPERM) s, none) := by
  simp only [call, if_neg h]

/-- Claim C4 witness: a read-only open (`flags = O_RDONLY = 0`) on the empty
table. -/
theorem claim_C4_witness :
    (0 &&& O_ACCMODE ≠ O_WRONLY) ∧
    call Slab.empty (.Open 0) = (.ok (.error EPERM) Slab.empty, none) :=
  ⟨by decide, claim_C4_open_non_wronly_rejected Slab.empty 0 (by decide)⟩

/-- Claim C5: a write whose handle id is absent from the table replies with the
`EIO` I/O error and leaves the table unchanged: no buffer is created or
mutated. -/
theorem claim_C5_write_unknown_handle (s : Slab) (fh offset size : Nat)
    (payload : Option (List Nat)) (h : s.get fh = none) :
    call s (.Write fh offset size payload) = (.ok (.error EIO) s, none) :=
  call_write_unknown s fh offset size payload h

/-- Claim C5 witness: a write to never-opened handle 999 on the empty table. -/
theorem claim_C5_witness :
    Slab.empty.get 999 = none ∧
    call Slab.empty (.Write 999 0 5 (some [104, 101, 108, 108, 111])) =
      (.ok (.error EIO) Slab.empty, none) :=
  ⟨by decide,
    claim_C5_write_unknown_handle Slab.empty 999 0 5 (some [104, 101, 108, 108, 111])
      (by decide)⟩

/-- Claim C6: on a well-formed slab, open's allocation returns a key that was
not previously occupied (so it is distinct from every id currently in the
table), immediately looks up to the empty buffer, and leaves every other
entry unchanged. -/
theorem claim_C6_fresh_key_empty_buffer (s : Slab) (h : s.WF) :
    ∃ key s1, s.insert [] = some (key, s1) ∧
      s.get key = none ∧ s1.get key = some [] ∧
      ∀ j, j ≠ key → s1.get j = s.get j := by
  rcases h with heq | ⟨nx, hvac⟩
  · refine ⟨s.next, ⟨s.entries ++ [.occupied []], s.next + 1⟩, ?_, ?_, ?_, ?_⟩
    · simp [Slab.insert, heq]
    · simp [Slab.get, List.getElem?_eq_none (Nat.le_of_eq heq.symm)]
    · simp [Slab.get, heq, List.getElem?_concat_length]
    · intro j hj
      have hscr : (s.entries ++ [Entry.occupied ([] : List Nat)])[j]? = s.entries[j]? := by
        rcases Nat.lt_or_ge j s.entries.length with hlt | hge
        · exact List.getElem?_append_left hlt
        · rw [List.getElem?_append_right hge, List.getElem?_eq_none (l := s.entries) hge,
            List.getElem?_eq_none (by simp; omega)]
      unfold Slab.get
      rw [hscr]
  · have hlt : s.next < s.entries.length := by
      by_contra hcon
      push_neg at hcon
      rw [List.getElem?_eq_none hcon] at hvac
      cases hvac
    refine ⟨s.next, ⟨s.entries.set s.next (.occupied []), nx⟩, ?_, ?_, ?_, ?_⟩
    · simp [Slab.insert, Nat.ne_of_lt hlt, hvac]
    · simp [Slab.get, hvac]
    · simp [Slab.get, List.getElem?_set_self hlt]
    · intro j hj
      unfold Slab.get
      rw [List.getElem?_set_ne (Ne.symm hj)]

/-- Claim C6 witness: allocation on the empty slab yields key 0 with an empty
buffer. -/
theorem claim_C6_witness :
    Slab.WF Slab.empty ∧
    ∃ key s1, Slab.empty.insert [] = some (key, s1) ∧
      Slab.empty.get key = none ∧ s1.get key = some [] ∧
      ∀ j, j ≠ key → s1.get j = Slab.empty.get j :=
  ⟨Or.inl rfl, claim_C6_fresh_key_empty_buffer Slab.empty (Or.inl rfl)⟩

/-- Claim C7: releasing an open handle always replies success (`released`) to
the protocol layer, for either publish outcome: the publish result is only
logged, never surfaced in the reply. -/
theorem claim_C7_release_replies_success (s : Slab) (fh : Nat) (b : List Nat)
    (pub : Bool) (h : s.get fh = some b) :
    call s (.Release fh pub) =
      (.ok .released ⟨s.entries.set fh (.vacant s.next), fh⟩,
        some (String.mk (lossyDecode b))) :=
  call_release_open s fh b pub h

/-- Claim C7 witness: releasing open handle 0 (buffer "hi") with a failing
publish still replies success. -/
theorem claim_C7_witness :
    Slab.get ⟨[.occupied [104, 105]], 1⟩ 0 = some [104, 105] ∧
    call ⟨[.occupied [104, 105]], 1⟩ (.Release 0 false) =
      (.ok .released ⟨[Entry.occupied [104, 105]].set 0 (.vacant 1), 0⟩,
        some (String.mk (lossyDecode [104, 105]))) :=
  ⟨by decide,
    claim_C7_release_replies_success ⟨[.occupied [104, 105]], 1⟩ 0 [104, 105] false
      (by decide)⟩

/-- Claim C8 counterexample: with a valid mountpoint but all four credentials
absent, `run` fails — but `main` only logs that error inside
`tokio_compat::run_std` and returns `Ok(())`, so the process exits zero, not
nonzero as the claim states. -/
theorem claim_C8_counterexample :
    failed (run ["tweet-fs", "/mnt/tweet"] true ⟨none, none, none, none⟩ (.ok ())) = true ∧
    exitCode (mainResult (.ok ()) ["tweet-fs", "/mnt/tweet"] true
      ⟨none, none, none, none⟩ (.ok ())) = 0 := by
  decide

/-- Claim C8 (amended): if the mount target is not a regular file or any of the
four credentials is absent, startup fails in the sense that `run` returns an
error and the filesystem never mounts — but the error is only logged and the
process exits zero (only a `dotenv` load failure propagates to a nonzero
exit). -/
theorem claim_C8_startup_failure_exits_zero (args : List String) (isFile : Bool)
    (env : Env) (mountRes : Except String Unit)
    (h : isFile = false ∨ env.consumerKey = none ∨ env.consumerSecret = none ∨
      env.accessToken = none ∨ env.accessTokenSecret = none) :
    failed (run args isFile env mountRes) = true ∧
    exitCode (mainResult (.ok ()) args isFile env mountRes) = 0 := by
  refine ⟨?_, rfl⟩
  rcases hargs : args[1]? with _ | arg
  · simp [run, hargs, failed]
  · rcases env with ⟨ck, cs, at1, ats⟩
    cases isFile with
    | false => simp [run, hargs, failed]
    | true =>
      cases ck <;> cases cs <;> cases at1 <;> cases ats <;>
        simp_all [run, hargs, TweetFSnew, failed]

/-- Claim C8 witness: valid mountpoint, `ACCESS_TOKEN` absent: `run` fails yet
the exit code is zero. -/
theorem claim_C8_witness :
    failed (run ["tweet-fs", "/mnt/tweet"] true
      ⟨some "ck", some "cs", none, some "ats"⟩ (.ok ())) = true ∧
    exitCode (mainResult (.ok ()) ["tweet-fs", "/mnt/tweet"] true
      ⟨some "ck", some "cs", none, some "ats"⟩ (.ok ())) = 0 :=
  claim_C8_startup_failure_exits_zero ["tweet-fs", "/mnt/tweet"] true
    ⟨some "ck", some "cs", none, some "ats"⟩ (.ok ())
    (Or.inr (Or.inr (Or.inr (Or.inl rfl))))

/-- Claim C9: the scenario open → write(offset 3, "abc") → release: the open
allocates handle 0 with an empty buffer, the write leaves the buffer as three
zero bytes followed by `"abc"` (6 bytes), and the release hands the publish
bridge the lossy UTF-8 decoding of those 6 bytes (three NUL characters followed
by `abc`) while replying success. -/
theorem claim_C9_offset_write_scenario :
    call Slab.empty (.Open 1) = (.ok (.opened 0) ⟨[.occupied []], 1⟩, none) ∧
    call ⟨[.occupied []], 1⟩ (.Write 0 3 3 (some [97, 98, 99])) =
      (.ok (.written 3) ⟨[.occupied ([0, 0, 0] ++ [97, 98, 99])], 1⟩, none) ∧
    call ⟨[.occupied ([0, 0, 0] ++ [97, 98, 99])], 1⟩ (.Release 0 true) =
      (.ok .released ⟨[.vacant 1], 0⟩,
        some (String.mk (lossyDecode ([0, 0, 0] ++ [97, 98, 99])))) ∧
    lossyDecode ([0, 0, 0] ++ [97, 98, 99]) =
      [Char.ofNat 0, Char.ofNat 0, Char.ofNat 0, 'a', 'b', 'c'] := by
  refine ⟨by decide, by decide, ?_, ?_⟩
  · simp only [call, Slab.remove, List.cons_append, List.nil_append]
    rfl
  · simp only [List.cons_append, List.nil_append]
    rw [lossyDecode]; norm_num
    rw [lossyDecode]; norm_num
    rw [lossyDecode]; norm_num
    rw [lossyDecode]; norm_num
    rw [lossyDecode]; norm_num
    rw [lossyDecode]; norm_num
    rw [lossyDecode]

/-- Claim C10: a write to a known handle resizes the buffer to `offset + size`
(zero-filling past the old contents) before the payload is read from the
transport; if that read fails, the task panics — no error reply — and the
already-resized buffer is left in the table under the same handle. -/
theorem claim_C10_failed_payload_read_panics (s : Slab) (fh offset size : Nat)
    (content : List Nat) (h : s.get fh = some content) :
    call s (.Write fh offset size none) =
      (.panicked (s.update fh (resizeBuf content (offset + size))), none) ∧
    (s.update fh (resizeBuf content (offset + size))).get fh =
      some (resizeBuf content (offset + size)) ∧
    (resizeBuf content (offset + size)).length = offset + size ∧
    ∀ j, content.length ≤ j → byteAt (resizeBuf content (offset + size)) j = 0 := by
  have hk := (Slab.get_eq_some_iff s fh content).1 h
  have hfh_lt : fh < s.entries.length := by
    by_contra hcon
    push_neg at hcon
    rw [List.getElem?_eq_none hcon] at hk
    cases hk
  refine ⟨by simp only [call, h], ?_, resizeBuf_length content (offset + size), ?_⟩
  · simp [Slab.update, Slab.get, List.getElem?_set_self hfh_lt]
  · intro j hj
    exact byteAt_resizeBuf content (offset + size) j (byteAt_zero_of_length_le content j hj)

/-- Claim C10 witness: handle 0 holds `[97]`; a write at offset 2 of size 3
whose payload read fails panics with the zero-extended buffer `[97,0,0,0,0]`
left in the table. -/
theorem claim_C10_witness :
    call ⟨[.occupied [97]], 1⟩ (.Write 0 2 3 none) =
      (.panicked (Slab.update ⟨[.occupied [97]], 1⟩ 0 (resizeBuf [97] (2 + 3))), none) ∧
    byteAt (resizeBuf [97] (2 + 3)) 4 = 0 :=
  ⟨(claim_C10_failed_payload_read_panics ⟨[.occupied [97]], 1⟩ 0 2 3 [97] (by decide)).1,
    (claim_C10_failed_payload_read_panics ⟨[.occupied [97]], 1⟩ 0 2 3 [97] (by decide)).2.2.2
      4 (by decide)⟩

end TweetFS
